import Mathlib

/-!
Verification of the carmm structural bond & coordination analysis core
(`carmm/analyse/bonds.py`, `carmm/analyse/gcn.py`) against its
natural-language specification.

The atomic structure together with the external collaborators (ASE's
geometric bond detection / distances, the ASE neighbour-list connectivity
matrix and scipy's connected-component labelling) are modelled as a record
of abstract functions.  The analysis functions of the repository are
translated line by line into pure Lean functions over that record; Python
steps that can raise (subscripting an empty list or `None`) become
`Option`-valued steps.
-/

namespace Carmm

/-- Abstract model of an ASE `Atoms` structure together with the external
services the analysis code calls:
* `symbols` — `atoms.get_chemical_symbols()`;
* `bonds A B` — the single-image list of bonded index pairs returned by
  `ase.geometry.analysis.Analysis.get_bonds(A, B)[0]` (each unordered bonded
  pair listed once);
* `dist i j` — the bond length reported by `Analysis.get_values` for the
  pair `(i, j)` (distances are modelled as rationals);
* `conn` — the dense connectivity matrix built from
  `NeighborList(natural_cutoffs(atoms, mult), skin=0, self_interaction=True,
  bothways=True)`;
* `cc` — scipy's `sparse.csgraph.connected_components` labelling, as a
  function from a matrix to the per-atom component label array. -/
structure Model where
  symbols : List String
  bonds : String → String → List (Nat × Nat)
  dist : Nat → Nat → ℚ
  conn : Nat → Nat → Bool
  cc : (Nat → Nat → Bool) → Nat → ℕ

/-! ### Shared list utilities

`dictDedup` keeps the first occurrence of every element, in order — the key
order of a Python `dict` / `Counter` filled by iterating a list, and a
canonical representative for Python `set(...)` (whose iteration order is
implementation defined; no result we prove depends on the order chosen). -/

def dictDedup {α : Type} [DecidableEq α] : List α → List α
  | [] => []
  | a :: as => a :: (dictDedup as).filter (fun b => decide (b ≠ a))

theorem mem_dictDedup {α : Type} [DecidableEq α] {b : α} :
    ∀ {l : List α}, b ∈ dictDedup l ↔ b ∈ l
  | [] => Iff.rfl
  | a :: as => by
    simp only [dictDedup, List.mem_cons, List.mem_filter, decide_eq_true_eq]
    constructor
    · rintro (rfl | ⟨hb, _⟩)
      · exact Or.inl rfl
      · exact Or.inr (mem_dictDedup.1 hb)
    · rintro (rfl | hb)
      · exact Or.inl rfl
      · by_cases hba : b = a
        · exact Or.inl hba
        · exact Or.inr ⟨mem_dictDedup.2 hb, hba⟩

theorem nodup_dictDedup {α : Type} [DecidableEq α] :
    ∀ l : List α, (dictDedup l).Nodup
  | [] => List.nodup_nil
  | a :: as => by
    refine List.nodup_cons.2 ⟨?_, List.Nodup.filter _ (nodup_dictDedup as)⟩
    intro ha
    rcases List.mem_filter.1 ha with ⟨-, hne⟩
    simp at hne

theorem dictDedup_eq_self {α : Type} [DecidableEq α] :
    ∀ {l : List α}, l.Nodup → dictDedup l = l
  | [], _ => rfl
  | a :: as, h => by
    rcases List.nodup_cons.1 h with ⟨ha, has⟩
    simp only [dictDedup, dictDedup_eq_self has]
    rw [List.filter_eq_self.2]
    intro b hb
    simp only [decide_eq_true_eq]
    intro hba
    exact ha (hba ▸ hb)

theorem dictDedup_perm_dedup {α : Type} [DecidableEq α] (l : List α) :
    List.Perm (dictDedup l) l.dedup :=
  (List.perm_ext_iff_of_nodup (nodup_dictDedup l) l.nodup_dedup).2
    (fun a => by rw [mem_dictDedup, List.mem_dedup])

/-- The sum, over the distinct values of `l`, of each value's multiplicity in
`l` recovers the length of `l`. -/
theorem sum_count_dictDedup {α : Type} [DecidableEq α] (l : List α) :
    ((dictDedup l).map (fun x => l.count x)).sum = l.length := by
  have h := ((dictDedup_perm_dedup l).map (fun x => l.count x)).sum_eq
  rw [h, List.sum_map_count_dedup_eq_length]

theorem natList_sum_eq_zero :
    ∀ {l : List ℕ}, l.sum = 0 ↔ ∀ x ∈ l, x = 0
  | [] => by simp
  | a :: as => by
    simp [Nat.add_eq_zero, natList_sum_eq_zero]

/-- `itertools.combinations_with_replacement(l, 2)`: all pairs `(l[i], l[j])`
with `i ≤ j`, in lexicographic index order. -/
def combinationsWithReplacement {α : Type} : List α → List (α × α)
  | [] => []
  | a :: as => (a :: as).map (fun b => (a, b)) ++ combinationsWithReplacement as

theorem length_combinationsWithReplacement {α : Type} :
    ∀ l : List α, (combinationsWithReplacement l).length = Nat.choose (l.length + 1) 2
  | [] => rfl
  | a :: as => by
    simp only [combinationsWithReplacement, List.length_append, List.length_map,
      List.length_cons, length_combinationsWithReplacement as]
    rw [Nat.choose_succ_succ (as.length + 1) 1, Nat.choose_one_right]

/-! ### Bond Classifier (`analyse_bonds`, bonds.py lines 90-126)

Printing (the `verbose` / `multirow` arguments) is presentation only and is
dropped; the data contract is the returned triple. -/

/-- `analyse_bonds(model, A, B)`: returns `print_AB = A + "-" + B`, the
per-image bond list `AB_Bonds = analysis.get_bonds(A, B)` (one image for an
`Atoms` input, hence a one-element outer list), and `AB_BondsValues`, which is
`None` when `AB_Bonds == [[]]` and otherwise the per-image distance lists. -/
def analyse_bonds (m : Model) (A B : String) :
    String × List (List (Nat × Nat)) × Option (List (List ℚ)) :=
  let print_AB := A ++ "-" ++ B
  let AB_Bonds := [m.bonds A B]
  let AB_BondsValues :=
    if AB_Bonds = [[]] then none
    else some (AB_Bonds.map (fun image => image.map (fun p => m.dist p.1 p.2)))
  (print_AB, AB_Bonds, AB_BondsValues)

/-! ### Bond Survey (`analyse_all_bonds`, bonds.py lines 40-88) -/

/-- The abnormal-bond cutoff of bonds.py lines 77-78:
`max(0.4, sum_of_covalent_radii * 0.75)`, where `radius` is the external
`ase.data.covalent_radii` lookup. -/
def abnormal_cutoff (radius : String → ℚ) (A B : String) : ℚ :=
  max 0.4 ((radius A + radius B) * 0.75)

/-- The element-pair combinations the survey iterates (bonds.py lines 58-61):
`combinations_with_replacement(list(set(model.get_chemical_symbols())), 2)`.
`dictDedup` stands for the implementation-defined order of `list(set(..))`. -/
def surveyPairs (m : Model) : List (String × String) :=
  combinationsWithReplacement (dictDedup m.symbols)

/-- The survey loop of bonds.py lines 73-84, processing a given list of
element pairs in order: per pair, run `analyse_bonds`; when abnormal checking
is on and values were found, append (per image) the number of distances below
the pair's cutoff and the pair label, whenever that number is nonzero. -/
def analyse_all_bonds_aux (radius : String → ℚ) (m : Model) (abnormal : Bool) :
    List (String × String) → List ℕ × List String
  | [] => ([], [])
  | p :: ps =>
    let r := analyse_bonds m p.1 p.2
    let rest := analyse_all_bonds_aux radius m abnormal ps
    match r.2.2 with
    | none => rest
    | some valsLists =>
      if abnormal then
        let cutoff := abnormal_cutoff radius p.1 p.2
        let entries := valsLists.filterMap (fun vals =>
          let av := vals.filter (fun d => decide (d < cutoff))
          if av.length ≠ 0 then some av.length else none)
        (entries ++ rest.1, List.replicate entries.length r.1 ++ rest.2)
      else rest

/-- `analyse_all_bonds(model, abnormal)` (bonds.py lines 40-88): returns the
parallel lists `abnormal_bonds` (counts) and `list_of_abnormal_bonds`
(labels). -/
def analyse_all_bonds (radius : String → ℚ) (m : Model) (abnormal : Bool) :
    List ℕ × List String :=
  analyse_all_bonds_aux radius m abnormal (surveyPairs m)

/-- `search_abnormal_bonds(model)` (bonds.py lines 128-161): runs the survey
with abnormal checking enabled and returns `False` when
`len(abnormal_bonds) > 0`, `True` otherwise. -/
def search_abnormal_bonds (radius : String → ℚ) (m : Model) : Bool :=
  let r := analyse_all_bonds radius m true
  if 0 < r.1.length then false else true

/-- The distances the survey would flag for the element pair `p`: the bond
lengths of that pair that fall below the pair's abnormal cutoff. -/
def abnormalDistances (radius : String → ℚ) (m : Model) (p : String × String) :
    List ℚ :=
  ((m.bonds p.1 p.2).map (fun q => m.dist q.1 q.2)).filter
    (fun d => decide (d < abnormal_cutoff radius p.1 p.2))

/-- Closed form of the survey loop: over any pair list, the counts list has
one entry per pair with a nonzero number of abnormal distances (carrying that
number), and the labels list has the matching `A-B` label in the same
position; pairs with no abnormal distance contribute nothing. -/
theorem analyse_all_bonds_aux_eq (radius : String → ℚ) (m : Model) :
    ∀ l : List (String × String),
      analyse_all_bonds_aux radius m true l =
        (l.filterMap (fun p =>
            if (abnormalDistances radius m p).length ≠ 0
            then some (abnormalDistances radius m p).length else none),
         l.filterMap (fun p =>
            if (abnormalDistances radius m p).length ≠ 0
            then some (p.1 ++ "-" ++ p.2) else none))
  | [] => rfl
  | p :: ps => by
    rw [analyse_all_bonds_aux, analyse_all_bonds_aux_eq radius m ps]
    by_cases hb : m.bonds p.1 p.2 = []
    · have hnone : (analyse_bonds m p.1 p.2).2.2 = none := by
        simp [analyse_bonds, hb]
      have habn : abnormalDistances radius m p = [] := by
        simp [abnormalDistances, hb]
      simp [hnone, habn, List.filterMap_cons]
    · have hsome : (analyse_bonds m p.1 p.2).2.2 =
          some [(m.bonds p.1 p.2).map (fun q => m.dist q.1 q.2)] := by
        simp [analyse_bonds, hb]
      rw [hsome]
      by_cases hz : (abnormalDistances radius m p).length ≠ 0
      · rw [@List.filterMap_cons_some (String × String) ℕ
            (fun q => if (abnormalDistances radius m q).length ≠ 0
              then some (abnormalDistances radius m q).length else none)
            p ps _ (if_pos hz),
          @List.filterMap_cons_some (String × String) String
            (fun q => if (abnormalDistances radius m q).length ≠ 0
              then some (q.1 ++ "-" ++ q.2) else none)
            p ps _ (if_pos hz)]
        have hent : List.filterMap
            (fun vals : List ℚ =>
              let av := vals.filter (fun d => decide (d < abnormal_cutoff radius p.1 p.2))
              if av.length ≠ 0 then some av.length else none)
            [(m.bonds p.1 p.2).map (fun q => m.dist q.1 q.2)] =
            [(abnormalDistances radius m p).length] := by
          have hF : (fun vals : List ℚ =>
              let av := vals.filter (fun d => decide (d < abnormal_cutoff radius p.1 p.2))
              if av.length ≠ 0 then some av.length else none)
              ((m.bonds p.1 p.2).map (fun q => m.dist q.1 q.2)) =
              some (abnormalDistances radius m p).length := if_pos hz
          rw [@List.filterMap_cons_some (List ℚ) ℕ
              (fun vals =>
                let av := vals.filter (fun d => decide (d < abnormal_cutoff radius p.1 p.2))
                if av.length ≠ 0 then some av.length else none)
              ((m.bonds p.1 p.2).map (fun q => m.dist q.1 q.2)) [] _ hF,
            List.filterMap_nil]
        show (List.filterMap _ [(m.bonds p.1 p.2).map (fun q => m.dist q.1 q.2)] ++ _,
            List.replicate (List.filterMap _
              [(m.bonds p.1 p.2).map (fun q => m.dist q.1 q.2)]).length
              (analyse_bonds m p.1 p.2).1 ++ _) = _
        rw [hent]
        rfl
      · rw [@List.filterMap_cons_none (String × String) ℕ
            (fun q => if (abnormalDistances radius m q).length ≠ 0
              then some (abnormalDistances radius m q).length else none)
            p ps (if_neg hz),
          @List.filterMap_cons_none (String × String) String
            (fun q => if (abnormalDistances radius m q).length ≠ 0
              then some (q.1 ++ "-" ++ q.2) else none)
            p ps (if_neg hz)]
        have hent : List.filterMap
            (fun vals : List ℚ =>
              let av := vals.filter (fun d => decide (d < abnormal_cutoff radius p.1 p.2))
              if av.length ≠ 0 then some av.length else none)
            [(m.bonds p.1 p.2).map (fun q => m.dist q.1 q.2)] = [] := by
          have hF : (fun vals : List ℚ =>
              let av := vals.filter (fun d => decide (d < abnormal_cutoff radius p.1 p.2))
              if av.length ≠ 0 then some av.length else none)
              ((m.bonds p.1 p.2).map (fun q => m.dist q.1 q.2)) = none := if_neg hz
          rw [@List.filterMap_cons_none (List ℚ) ℕ
              (fun vals =>
                let av := vals.filter (fun d => decide (d < abnormal_cutoff radius p.1 p.2))
                if av.length ≠ 0 then some av.length else none)
              ((m.bonds p.1 p.2).map (fun q => m.dist q.1 q.2)) [] hF,
            List.filterMap_nil]
        show (List.filterMap _ [(m.bonds p.1 p.2).map (fun q => m.dist q.1 q.2)] ++ _,
            List.replicate (List.filterMap _
              [(m.bonds p.1 p.2).map (fun q => m.dist q.1 q.2)]).length
              (analyse_bonds m p.1 p.2).1 ++ _) = _
        rw [hent]
        rfl

/-! ### Claims about the Bond Survey -/

/-- **C1**: the abnormal-bond threshold used by the Bond Survey equals
`max(0.4, 0.75 * (covalent_radius(A) + covalent_radius(B)))`; it is never
below `0.4` for any pair of radii, and increasing either covalent radius
never decreases the threshold. -/
theorem abnormal_cutoff_floor_and_monotone (rad rad' : String → ℚ) (A B : String)
    (hA : rad A ≤ rad' A) (hB : rad B ≤ rad' B) :
    abnormal_cutoff rad A B = max 0.4 (0.75 * (rad A + rad B)) ∧
    (0.4 : ℚ) ≤ abnormal_cutoff rad A B ∧
    abnormal_cutoff rad A B ≤ abnormal_cutoff rad' A B := by
  refine ⟨by rw [abnormal_cutoff, mul_comm], le_max_left _ _, ?_⟩
  apply max_le_max le_rfl
  exact mul_le_mul_of_nonneg_right (add_le_add hA hB) (by norm_num)

/-- Witness for C1 at concrete radius tables (all radii `1`, resp. `2`). -/
theorem abnormal_cutoff_floor_and_monotone_witness :
    ((1 : ℚ) ≤ 2 ∧ (1 : ℚ) ≤ 2) ∧
    (abnormal_cutoff (fun _ => 1) "H" "O" = max 0.4 (0.75 * ((1 : ℚ) + 1)) ∧
      (0.4 : ℚ) ≤ abnormal_cutoff (fun _ => 1) "H" "O" ∧
      abnormal_cutoff (fun _ => 1) "H" "O" ≤ abnormal_cutoff (fun _ => 2) "H" "O") :=
  ⟨⟨by norm_num, by norm_num⟩,
    abnormal_cutoff_floor_and_monotone (fun _ => 1) (fun _ => 2) "H" "O"
      (by norm_num) (by norm_num)⟩

/-- **C9**: in the survey with abnormal checking enabled, each element pair
with at least one distance below its threshold contributes exactly one entry
to each of the two parallel result lists — the count entry being the number
of abnormal distances for that pair — and pairs with no abnormal distance
contribute no entries. -/
theorem survey_abnormal_entry_granularity (radius : String → ℚ) (m : Model) :
    (analyse_all_bonds radius m true).1 = (surveyPairs m).filterMap (fun p =>
        if (abnormalDistances radius m p).length ≠ 0
        then some (abnormalDistances radius m p).length else none) ∧
    (analyse_all_bonds radius m true).2 = (surveyPairs m).filterMap (fun p =>
        if (abnormalDistances radius m p).length ≠ 0
        then some (p.1 ++ "-" ++ p.2) else none) := by
  have h := analyse_all_bonds_aux_eq radius m (surveyPairs m)
  exact ⟨congrArg Prod.fst h, congrArg Prod.snd h⟩

/-- **C7**: `search_abnormal_bonds` returns `True` iff zero abnormal bonds
were found across all element pairs of the survey, `False` otherwise. -/
theorem search_abnormal_bonds_iff_no_abnormal (radius : String → ℚ) (m : Model) :
    search_abnormal_bonds radius m = true ↔
      ((surveyPairs m).map (fun p => (abnormalDistances radius m p).length)).sum = 0 := by
  have h := analyse_all_bonds_aux_eq radius m (surveyPairs m)
  have hfst : (analyse_all_bonds radius m true).1 =
      (surveyPairs m).filterMap (fun p =>
        if (abnormalDistances radius m p).length ≠ 0
        then some (abnormalDistances radius m p).length else none) :=
    congrArg Prod.fst h
  have hiff : (surveyPairs m).filterMap (fun p =>
        if (abnormalDistances radius m p).length ≠ 0
        then some (abnormalDistances radius m p).length else none) = [] ↔
      ((surveyPairs m).map (fun p => (abnormalDistances radius m p).length)).sum = 0 := by
    rw [List.filterMap_eq_nil_iff, natList_sum_eq_zero]
    constructor
    · intro hall x hx
      rcases List.mem_map.1 hx with ⟨p, hp, rfl⟩
      by_contra hne
      have := hall p hp
      rw [if_pos hne] at this
      exact Option.some_ne_none _ this
    · intro hall p hp
      have hlen : (abnormalDistances radius m p).length = 0 :=
        hall _ (List.mem_map.2 ⟨p, hp, rfl⟩)
      exact if_neg (fun hcon => hcon hlen)
  show (if 0 < (analyse_all_bonds radius m true).1.length then false else true) = true ↔ _
  rw [hfst]
  by_cases hL : (surveyPairs m).filterMap (fun p =>
      if (abnormalDistances radius m p).length ≠ 0
      then some (abnormalDistances radius m p).length else none) = []
  · rw [hL]
    exact ⟨fun _ => hiff.1 hL, fun _ => rfl⟩
  · rw [if_pos (List.length_pos.2 hL)]
    exact ⟨fun hfalse => (by cases hfalse), fun hsum => absurd (hiff.2 hsum) hL⟩

/-- **C8**: for a structure with `k` distinct element symbols, the Bond
Survey iterates exactly `C(k+1, 2)` element-pair combinations (combinations
with replacement of the distinct symbols). -/
theorem survey_pair_combination_count (m : Model) :
    (surveyPairs m).length = Nat.choose ((dictDedup m.symbols).length + 1) 2 :=
  length_combinationsWithReplacement (dictDedup m.symbols)

/-! ### Chelation Analyzer (`analyse_chelation`, bonds.py lines 257-332)

Python steps that raise for some inputs are modelled as `Option` failures:
`matrix[metal_idx[0]]` raises `IndexError` when no atom matches the metal
symbol, and `ligand_coord[2][0]` raises `TypeError` when `analyse_bonds`
returned the `None` sentinel (no metal-ligand bonds). -/

/-- bonds.py line 290:
`[i for i in range(len(atoms)) if atoms.get_chemical_symbols()[i] == metal]`. -/
def metalIndices (m : Model) (metal : String) : List Nat :=
  (List.range m.symbols.length).filter (fun i => decide (m.symbols.getD i "" = metal))

/-- bonds.py lines 291-293: the connectivity matrix with the metal atom's row
and column zeroed out. -/
def zeroedMatrix (conn : Nat → Nat → Bool) (mIdx : Nat) : Nat → Nat → Bool :=
  fun i j => if i = mIdx ∨ j = mIdx then false else conn i j

/-- bonds.py line 294: the per-atom component labels scipy's
`connected_components` assigns after the metal atom (first matching index)
has been disconnected. -/
def componentLabels (m : Model) (metal : String) : Nat → ℕ :=
  m.cc (zeroedMatrix m.conn ((metalIndices m metal).headD 0))

/-- The Python `sorted(...)` builtin (a stable comparison sort), as insertion
sort on a boolean `le`. -/
def insertSorted {α : Type} (le : α → α → Bool) (a : α) : List α → List α
  | [] => [a]
  | b :: bs => if le a b then a :: b :: bs else b :: insertSorted le a bs

def pySorted {α : Type} (le : α → α → Bool) (l : List α) : List α :=
  l.foldr (insertSorted le) []

/-- bonds.py lines 321-328: count the chemical symbols of a component
(`collections.Counter`), order the (symbol, count) items by symbol
(`OrderedDict(sorted(symbolcount.items()))` — keys are distinct, so sorting
the pairs is sorting by key), and concatenate `str(k) + str(v)`. -/
def chemFormula (idx_symbols : List String) : String :=
  let symbolcount := (dictDedup idx_symbols).map (fun s => (s, idx_symbols.count s))
  let ordered := pySorted (fun a b => decide (a.1 ≤ b.1)) symbolcount
  ordered.foldl (fun acc kv => acc ++ kv.1 ++ toString kv.2) ""

/-- The `bond_info` dictionary returned by `analyse_chelation`. -/
structure ChelationInfo where
  molecules : List ℕ
  formula : List String
  chelation : List ℕ
deriving DecidableEq

/-- `analyse_chelation(atoms, metal, ligand_atom)` (bonds.py lines 257-332).
Returns `none` exactly when the Python code raises: at `matrix[metal_idx[0]]`
(metal symbol absent) or at `coord_len = ligand_coord[2][0]`
(`AB_BondsValues` is the `None` sentinel, i.e. no metal-ligand bonds). -/
def analyse_chelation (m : Model) (metal ligand_atom : String) :
    Option ChelationInfo :=
  let ligand_coord := analyse_bonds m metal ligand_atom
  if metalIndices m metal = [] then none
  else
    let component_list := componentLabels m metal
    let coord_idx := (ligand_coord.2.1.headD []).map (fun p => p.2)
    match ligand_coord.2.2 with
    | none => none
    | some valsLists =>
      let _coord_len := valsLists.headD []
      let molidx_values := (dictDedup coord_idx).map (fun idx => component_list idx)
      let molecules := dictDedup molidx_values
      let chelation_type := molecules.map (fun c => molidx_values.count c)
      let molecule_formulas := molecules.map (fun c =>
        let molAtoms := (List.range m.symbols.length).filter
          (fun i => decide (component_list i = c))
        chemFormula (molAtoms.map (fun i => m.symbols.getD i "")))
      some ⟨molecules, molecule_formulas, chelation_type⟩

/-! ### Claims about the Chelation Analyzer -/

/-- **C3**: if the metal symbol is absent from the structure, the
component-extraction step inside the Chelation Analyzer fails (the code
reaches `matrix[metal_idx[0]]` with `metal_idx == []`) rather than producing
a result. -/
theorem chelation_metal_absent_fails (m : Model) (metal ligand_atom : String)
    (h : metal ∉ m.symbols) :
    analyse_chelation m metal ligand_atom = none := by
  have hempty : metalIndices m metal = [] := by
    rw [metalIndices, List.filter_eq_nil_iff]
    intro i hi
    simp only [decide_eq_true_eq]
    intro hcon
    apply h
    have hlt : i < m.symbols.length := List.mem_range.1 hi
    rw [List.getD_eq_getElem?_getD, List.getElem?_eq_getElem hlt] at hcon
    exact hcon ▸ List.getElem_mem hlt
  simp only [analyse_chelation, if_pos hempty]

/-- Structure used as the concrete input of the C3 witness: no `Pd` atom. -/
def mAbsent : Model where
  symbols := ["C", "O"]
  bonds := fun _ _ => []
  dist := fun _ _ => 0
  conn := fun _ _ => false
  cc := fun _ _ => 0

/-- Witness for C3: a structure with no `Pd` atom makes the analyzer fail. -/
theorem chelation_metal_absent_fails_witness :
    "Pd" ∉ mAbsent.symbols ∧ analyse_chelation mAbsent "Pd" "O" = none :=
  ⟨by decide, chelation_metal_absent_fails mAbsent "Pd" "O" (by decide)⟩

/-- Structure exhibiting the C4 failing input: the metal `Pd` is present but
no `Pd`-`C` bond exists (the Bond Classifier returns its `None` sentinel). -/
def mNoBonds : Model where
  symbols := ["Pd", "C"]
  bonds := fun _ _ => []
  dist := fun _ _ => 0
  conn := fun _ _ => false
  cc := fun _ _ => 0

/-- **C4** (code bug evidence): on a structure that contains the metal atom
but has no metal-ligand bond, `analyse_chelation` does not return the empty
record the spec promises — it fails (the Python code raises `TypeError` at
`coord_len = ligand_coord[2][0]`, since `ligand_coord[2]` is `None`). -/
theorem chelation_no_bonds_is_error :
    "Pd" ∈ mNoBonds.symbols ∧ mNoBonds.bonds "Pd" "C" = [] ∧
      analyse_chelation mNoBonds "Pd" "C" = none := by
  refine ⟨by decide, rfl, by decide⟩

/-- **C2**: with exactly one metal atom and a ligand-donor symbol distinct
from the metal symbol, the sum of the chelation multiplicities over all
returned components equals the number of metal-ligand bonded pairs reported
by the Bond Classifier. The hypotheses on `m.bonds` record the Bond
Classifier contract for that situation: the pair list is duplicate-free and
every pair's first index is the metal atom's index. -/
theorem chelation_multiplicity_sum (m : Model) (metal ligand_atom : String)
    (h1 : (metalIndices m metal).length = 1)
    (h2 : m.bonds metal ligand_atom ≠ [])
    (h3 : ∀ p ∈ m.bonds metal ligand_atom, p.1 ∈ metalIndices m metal)
    (h4 : (m.bonds metal ligand_atom).Nodup)
    (h5 : ligand_atom ≠ metal) :
    ∃ info, analyse_chelation m metal ligand_atom = some info ∧
      info.chelation.sum = (m.bonds metal ligand_atom).length := by
  obtain ⟨mi, hmi⟩ := List.length_eq_one.1 h1
  have hne : ¬metalIndices m metal = [] := by
    rw [hmi]
    exact List.cons_ne_nil _ _
  have hsome : (analyse_bonds m metal ligand_atom).2.2 =
      some [(m.bonds metal ligand_atom).map (fun q => m.dist q.1 q.2)] := by
    simp [analyse_bonds, h2]
  have hnodup_ci : ((m.bonds metal ligand_atom).map (fun p => p.2)).Nodup := by
    refine List.Nodup.map_on ?_ h4
    intro p hp q hq hpq
    have hp1 : p.1 = mi := by
      have := h3 p hp
      rw [hmi] at this
      simpa using this
    have hq1 : q.1 = mi := by
      have := h3 q hq
      rw [hmi] at this
      simpa using this
    exact Prod.ext (hp1.trans hq1.symm) hpq
  simp only [analyse_chelation, if_neg hne]
  rw [hsome]
  refine ⟨_, rfl, ?_⟩
  dsimp only
  have hhead : (analyse_bonds m metal ligand_atom).2.1.headD [] =
      m.bonds metal ligand_atom := rfl
  rw [hhead, dictDedup_eq_self hnodup_ci, sum_count_dictDedup,
    List.length_map, List.length_map]

/-- Concrete structure for the C2 witness: one `Pd` atom bonded to two `O`
donors sitting in two different components. -/
def mChel : Model where
  symbols := ["Pd", "O", "O"]
  bonds := fun a b => if a = "Pd" ∧ b = "O" then [(0, 1), (0, 2)] else []
  dist := fun _ _ => 2
  conn := fun i j => decide (i = j)
  cc := fun _ i => i

/-- Witness for C2: at `mChel` the hypotheses hold and the multiplicities sum
to the two reported Pd-O bonds. -/
theorem chelation_multiplicity_sum_witness :
    ((metalIndices mChel "Pd").length = 1 ∧
      mChel.bonds "Pd" "O" ≠ [] ∧
      (∀ p ∈ mChel.bonds "Pd" "O", p.1 ∈ metalIndices mChel "Pd") ∧
      (mChel.bonds "Pd" "O").Nodup ∧
      "O" ≠ "Pd") ∧
    (∃ info, analyse_chelation mChel "Pd" "O" = some info ∧
      info.chelation.sum = (mChel.bonds "Pd" "O").length) :=
  ⟨⟨by decide, by decide, by decide, by decide, by decide⟩,
    chelation_multiplicity_sum mChel "Pd" "O"
      (by decide) (by decide) (by decide) (by decide) (by decide)⟩

/-- The formula format exactly as the spec words it: count element-symbol
occurrences, order the distinct symbols alphabetically, and concatenate each
symbol with its count (an explicit digit even for count one, and no
carbon-first reordering — the order is purely alphabetical). -/
def formulaSpec (syms : List String) : String :=
  (pySorted (fun a b => decide (a ≤ b)) (dictDedup syms)).foldl
    (fun acc s => acc ++ s ++ toString (syms.count s)) ""

theorem insertSorted_map {α β : Type} (g : α → β) (leA : α → α → Bool)
    (leB : β → β → Bool) (h : ∀ x y, leB (g x) (g y) = leA x y) (a : α) :
    ∀ l : List α, insertSorted leB (g a) (l.map g) = (insertSorted leA a l).map g
  | [] => rfl
  | b :: bs => by
    simp only [List.map_cons, insertSorted, h a b]
    by_cases hab : leA a b = true
    · rw [if_pos hab, if_pos hab, List.map_cons, List.map_cons]
    · rw [if_neg hab, if_neg hab, insertSorted_map g leA leB h a bs,
        List.map_cons]

theorem pySorted_map {α β : Type} (g : α → β) (leA : α → α → Bool)
    (leB : β → β → Bool) (h : ∀ x y, leB (g x) (g y) = leA x y) :
    ∀ l : List α, pySorted leB (l.map g) = (pySorted leA l).map g
  | [] => rfl
  | a :: as => by
    simp only [pySorted, List.map_cons, List.foldr_cons]
    have ih := pySorted_map g leA leB h as
    simp only [pySorted] at ih
    rw [ih, insertSorted_map g leA leB h a]

/-- The source's formula pipeline (Counter, sort items by key, concatenate)
produces exactly the spec's alphabetical symbol-count format. -/
theorem chemFormula_eq_formulaSpec (l : List String) :
    chemFormula l = formulaSpec l := by
  simp only [chemFormula, formulaSpec]
  rw [pySorted_map (fun s => (s, l.count s)) (fun a b => decide (a ≤ b))
      (fun x y => decide (x.1 ≤ y.1)) (fun _ _ => rfl) (dictDedup l),
    List.foldl_map]

/-- **C10**: every formula string returned by the Chelation Analyzer is the
component's symbol counts concatenated in alphabetical symbol order with
explicit counts (no Hill-notation carbon-first reordering). -/
theorem chelation_formula_alphabetical (m : Model) (metal ligand_atom : String)
    (info : ChelationInfo)
    (h : analyse_chelation m metal ligand_atom = some info) :
    info.formula = info.molecules.map (fun c =>
      formulaSpec (((List.range m.symbols.length).filter
        (fun i => decide (componentLabels m metal i = c))).map
        (fun i => m.symbols.getD i ""))) := by
  by_cases hne : metalIndices m metal = []
  · simp [analyse_chelation, hne] at h
  · cases hv : (analyse_bonds m metal ligand_atom).2.2 with
    | none => simp [analyse_chelation, if_neg hne, hv] at h
    | some valsLists =>
      simp only [analyse_chelation, if_neg hne, hv, if_neg, Option.some.injEq] at h
      rw [← h]
      dsimp only
      simp only [chemFormula_eq_formulaSpec]

/-- The expected output of `analyse_chelation` at `mChel`. -/
def chelInfoEx : ChelationInfo := ⟨[1, 2], ["O1", "O1"], [1, 1]⟩

/-- Witness for C10 at the concrete structure `mChel`. -/
theorem chelation_formula_alphabetical_witness :
    analyse_chelation mChel "Pd" "O" = some chelInfoEx ∧
    chelInfoEx.formula = chelInfoEx.molecules.map (fun c =>
      formulaSpec (((List.range mChel.symbols.length).filter
        (fun i => decide (componentLabels mChel "Pd" i = c))).map
        (fun i => mChel.symbols.getD i ""))) :=
  ⟨by decide, chelation_formula_alphabetical mChel "Pd" "O" chelInfoEx (by decide)⟩

/-! ### GCN Calculator (`generalised_coordination_number`, gcn.py) -/

/-- Python's `str.lower()` as used on the lattice-name strings (all basic
latin), as a per-character lower-casing of the string's characters. -/
def pyLower (s : String) : String := String.mk (s.data.map Char.toLower)

/-- Modelled from the spec: `first_nearest_neighbours_list` lives in
`carmm/analyse/neighbours.py`, which is not among the sources here; the spec
describes it as the Neighbor Service returning, for each query index, that
atom's first-neighbour index list (one list per query index, not flattened).
`nn` is the abstract per-atom neighbour function of the service. -/
def first_nearest_neighbours_list (nn : Nat → List Nat) (site_index : List Nat) :
    List (List Nat) :=
  site_index.map nn

/-- `flatten_list_and_make_unique` (gcn.py lines 52-74): concatenate the
sublists in order, then `set(...)`; the set is represented as a
first-occurrence deduplicated list. -/
def flatten_list_and_make_unique (list_of_lists : List (List Nat)) : List Nat :=
  dictDedup (list_of_lists.foldl (fun all_values l => all_values ++ l) [])

/-- The `cn_max` normalisation of gcn.py lines 31-40: a string is looked up
case-insensitively in the fixed table (SC 6, BCC 8, FCC/HCP 12), any other
string raises `ValueError`; a number is used as given. -/
def resolve_cn_max (cn_max : String ⊕ ℚ) : Except String ℚ :=
  match cn_max with
  | Sum.inr x => Except.ok x
  | Sum.inl s =>
    if pyLower s = "sc" then Except.ok 6
    else if pyLower s = "bcc" then Except.ok 8
    else if pyLower s = "fcc" ∨ pyLower s = "hcp" then Except.ok 12
    else Except.error
      "Tabulated coordination numers only exist for simple cubic, BCC, FCC, and HCP."

/-- `generalised_coordination_number(slab, site_index, cn_max)` (gcn.py):
first shell of the query sites, flattened and deduplicated, then the
neighbour list of each first-shell atom; the sum of those list sizes divided
by `cn_max`. -/
def generalised_coordination_number (nn : Nat → List Nat) (site_index : List Nat)
    (cn_max : String ⊕ ℚ) : Except String ℚ :=
  match resolve_cn_max cn_max with
  | Except.error e => Except.error e
  | Except.ok cm =>
    let first_nearest_neighbours := first_nearest_neighbours_list nn site_index
    let fnn_flattened := flatten_list_and_make_unique first_nearest_neighbours
    let lofnofn := first_nearest_neighbours_list nn fnn_flattened
    let cn_first_nearest_neighbours : List ℕ :=
      lofnofn.map (fun neighbours => neighbours.length)
    let sum_cn_fnn : ℕ := cn_first_nearest_neighbours.sum
    Except.ok ((sum_cn_fnn : ℚ) / cm)

/-- **C5**: for a numeric `cn_max`, the GCN result equals the sum, over the
deduplicated flat set of first-shell neighbour indices of the query sites, of
the size of each such atom's own first-neighbour list, divided by `cn_max`. -/
theorem gcn_two_shell_sum (nn : Nat → List Nat) (sites : List Nat) (c : ℚ)
    (h : 0 < c) :
    generalised_coordination_number nn sites (Sum.inr c) =
      Except.ok ((((sites.map nn).foldl (fun acc l => acc ++ l) []).toFinset.sum
        (fun i => (nn i).length) : ℕ) / c) := by
  have hsum : ((flatten_list_and_make_unique (sites.map nn)).map
      (fun i => (nn i).length)).sum =
      ((sites.map nn).foldl (fun acc l => acc ++ l) []).toFinset.sum
        (fun i => (nn i).length) := by
    rw [flatten_list_and_make_unique,
      ← List.sum_toFinset _ (nodup_dictDedup _)]
    congr 1
    apply Finset.ext
    intro x
    simp only [List.mem_toFinset]
    exact mem_dictDedup
  simp only [generalised_coordination_number, resolve_cn_max,
    first_nearest_neighbours_list, List.map_map, Function.comp_def]
  rw [hsum]

/-- Witness for C5 at a concrete neighbour table. -/
theorem gcn_two_shell_sum_witness :
    (0 : ℚ) < 12 ∧
    generalised_coordination_number (fun i => if i = 0 then [1, 2] else [0]) [0]
        (Sum.inr 12) =
      Except.ok (((([0].map (fun i : Nat => if i = 0 then [1, 2] else [0])).foldl
        (fun acc l => acc ++ l) []).toFinset.sum
        (fun i => ((fun j : Nat => if j = 0 then [1, 2] else [0]) i).length) : ℕ) /
        (12 : ℚ)) :=
  ⟨by norm_num,
    gcn_two_shell_sum (fun i => if i = 0 then [1, 2] else [0]) [0] 12 (by norm_num)⟩

/-- **C6**: a string `cn_max` is mapped case-insensitively through the fixed
table SC 6, BCC 8, FCC 12, HCP 12; the GCN result for `"FCC"` is identical to
the result for the literal `12`; and any string outside the table makes the
calculator fail with the unrecognised-lattice error, with no fallback. -/
theorem gcn_lattice_table (nn : Nat → List Nat) (sites : List Nat) (s : String)
    (h : pyLower s ∉ (["sc", "bcc", "fcc", "hcp"] : List String)) :
    (∀ t : String, pyLower t = "sc" → resolve_cn_max (Sum.inl t) = Except.ok 6) ∧
    (∀ t : String, pyLower t = "bcc" → resolve_cn_max (Sum.inl t) = Except.ok 8) ∧
    (∀ t : String, pyLower t = "fcc" ∨ pyLower t = "hcp" →
      resolve_cn_max (Sum.inl t) = Except.ok 12) ∧
    generalised_coordination_number nn sites (Sum.inl "FCC") =
      generalised_coordination_number nn sites (Sum.inr 12) ∧
    generalised_coordination_number nn sites (Sum.inl s) = Except.error
      "Tabulated coordination numers only exist for simple cubic, BCC, FCC, and HCP." := by
  simp only [List.mem_cons, List.not_mem_nil, or_false, not_or] at h
  obtain ⟨hsc, hbcc, hfcc, hhcp⟩ := h
  refine ⟨?_, ?_, ?_, ?_, ?_⟩
  · intro t ht
    rw [resolve_cn_max, if_pos ht]
  · intro t ht
    rw [resolve_cn_max, if_neg (by rw [ht]; decide), if_pos ht]
  · intro t ht
    rcases ht with ht | ht
    · rw [resolve_cn_max, if_neg (by rw [ht]; decide), if_neg (by rw [ht]; decide),
        if_pos (Or.inl ht)]
    · rw [resolve_cn_max, if_neg (by rw [ht]; decide), if_neg (by rw [ht]; decide),
        if_pos (Or.inr ht)]
  · have hres : resolve_cn_max (Sum.inl "FCC") = Except.ok 12 := rfl
    rw [generalised_coordination_number, generalised_coordination_number, hres]
    rfl
  · have hres : resolve_cn_max (Sum.inl s) = Except.error
        "Tabulated coordination numers only exist for simple cubic, BCC, FCC, and HCP." := by
      rw [resolve_cn_max, if_neg hsc, if_neg hbcc,
        if_neg (by rw [not_or]; exact ⟨hfcc, hhcp⟩)]
    rw [generalised_coordination_number, hres]

/-- Witness for C6 at the unrecognised lattice name `"XYZ"`. -/
theorem gcn_lattice_table_witness :
    pyLower "XYZ" ∉ (["sc", "bcc", "fcc", "hcp"] : List String) ∧
    ((∀ t : String, pyLower t = "sc" → resolve_cn_max (Sum.inl t) = Except.ok 6) ∧
    (∀ t : String, pyLower t = "bcc" → resolve_cn_max (Sum.inl t) = Except.ok 8) ∧
    (∀ t : String, pyLower t = "fcc" ∨ pyLower t = "hcp" →
      resolve_cn_max (Sum.inl t) = Except.ok 12) ∧
    generalised_coordination_number (fun _ => []) [] (Sum.inl "FCC") =
      generalised_coordination_number (fun _ => []) [] (Sum.inr 12) ∧
    generalised_coordination_number (fun _ => []) [] (Sum.inl "XYZ") = Except.error
      "Tabulated coordination numers only exist for simple cubic, BCC, FCC, and HCP.") :=
  ⟨by decide, gcn_lattice_table (fun _ => []) [] "XYZ" (by decide)⟩

end Carmm
